import Mathlib

/-!
Shallow embedding of the sub-page heap allocator in `src/vm/vmalloc.rs`
(Header / Zone / Kalloc).  Machine memory is modelled as a total map from
byte addresses to 64-bit words (`Nat`, with explicit `% 2 ^ 64` where the
source's `usize` arithmetic can wrap).  The page pool (`palloc` / `pfree`)
is modelled as a list of page addresses handed out in order; `pfree` calls
are logged.  Panics (`assert!` / `panic!` / `.expect`) are modelled as a
`fault` outcome carrying the diagnostic, and the addresses dereferenced by
`Kalloc::free` are logged in `reads` so that out-of-bounds accesses can be
stated.  Loops (`Zone::scan`, the zone walks in `Kalloc::alloc` and
`Kalloc::shrink_pool`) are translated with an explicit fuel parameter far
exceeding any walk arising in a 4096-byte page or in the configurations
below.
-/

namespace Vmalloc

/-- `PAGE_SIZE` from `hw/param.rs`. -/
def PAGE_SIZE : Nat := 4096

/-- `MAX_CHUNK_SIZE` = 4096 - 8 - 8. -/
def MAX_CHUNK_SIZE : Nat := 4080

/-- `HEADER_SIZE = size_of::<Header>()` = 8 bytes. -/
def HEADER_SIZE : Nat := 8

/-- `ZONE_SIZE` = 8 bytes. -/
def ZONE_SIZE : Nat := 8

/-- `HEADER_USED = 1 << 12` = 4096. -/
def HEADER_USED : Nat := 4096

/-- One more than the largest `usize` value; `usize` arithmetic wraps mod this. -/
def USIZE : Nat := 2 ^ 64

/-- Memory: byte address to 64-bit word (all accesses in the source are
word-sized and word-indexed). -/
def Mem : Type := Nat → Nat

/-- A word-sized store, `dest.write(v)`. -/
def Mem.write (m : Mem) (a v : Nat) : Mem := fun x => if x = a then v else m x

/-- A word-sized load, `src.read()`. -/
def Mem.read (m : Mem) (a : Nat) : Nat := m a

@[simp] theorem Mem.write_self (m : Mem) (a v : Nat) : Mem.write m a v a = v := by
  simp [Mem.write]

theorem Mem.write_other (m : Mem) (a v b : Nat) (h : b ≠ a) :
    Mem.write m a v b = m b := by
  simp [Mem.write, h]

/-- `KallocError` from `vmalloc.rs`. -/
inductive KallocError where
  | MaxRefs
  | MinRefs
  | NullZone
  | OOM
deriving DecidableEq, Repr

/-- `struct Header { fields: usize }`. -/
structure Header where
  fields : Nat
deriving DecidableEq, Repr

/-- `impl From<*mut usize> for Header`: read the word at `src`. -/
def Header.ofMem (m : Mem) (src : Nat) : Header := ⟨m src⟩

/-- `Header::new(size)`.  The source asserts `size <= MAX_CHUNK_SIZE`; its
only callers pass `MAX_CHUNK_SIZE` itself, so the assertion cannot fire. -/
def Header.new (size : Nat) : Header := ⟨size⟩

/-- `Header::chunk_size`: `fields & 0xFFF`. -/
def Header.chunk_size (h : Header) : Nat := h.fields &&& 0xFFF

/-- `Header::is_free`: `fields & HEADER_USED == 0`. -/
def Header.is_free (h : Header) : Bool := h.fields &&& HEADER_USED == 0

/-- `Header::set_used`: `fields | HEADER_USED`. -/
def Header.set_used (h : Header) : Header := ⟨h.fields ||| HEADER_USED⟩

/-- `Header::set_unused`: `fields & !HEADER_USED` (`!` is the 64-bit
complement, `2^64 - 1 - 2^12` for this single-bit mask). -/
def Header.set_unused (h : Header) : Header := ⟨h.fields &&& (USIZE - 1 - HEADER_USED)⟩

/-- `Header::set_size`: `(fields & !(0x1000 - 1)) | size`. -/
def Header.set_size (h : Header) (size : Nat) : Header :=
  ⟨(h.fields &&& (USIZE - 1 - 0xFFF)) ||| size⟩

/-- `Header::write_to(dest)`. -/
def Header.write_to (h : Header) (dest : Nat) (m : Mem) : Mem := m.write dest h.fields

/-- Result of `Header::split`: the shrunk chunk header (`self` after the
call), the remainder header and its address (the returned pair), and the
memory after both `write_to`s. -/
structure SplitRes where
  self : Header
  next : Header
  addr : Nat
  mem : Mem

/-- `Header::split(new_size, cur_addr)`.  `usize` subtraction wraps, hence
the `% USIZE`. -/
def Header.split (h : Header) (new_size cur_addr : Nat) (m : Mem) : SplitRes :=
  let old_size := h.chunk_size
  let next_size := (USIZE + old_size - new_size) % USIZE
  let h2 := h.set_size new_size
  let m1 := h2.write_to cur_addr m
  let next_addr := cur_addr + HEADER_SIZE + new_size
  let next_header : Header := ⟨(USIZE + next_size - HEADER_SIZE) % USIZE⟩
  let m2 := next_header.write_to next_addr m1
  ⟨h2, next_header, next_addr, m2⟩

/-- `Header::merge(next, next_addr)`: grow `self` by the absorbed header
and chunk, zero the absorbed header word.  The source asserts both headers
are free; every call site (`Zone::scan`, `Kalloc::free`) checks both
used-bits before calling, so the assertions cannot fire. -/
def Header.merge (h next : Header) (next_addr : Nat) (m : Mem) : Header × Mem :=
  (h.set_size (h.chunk_size + HEADER_SIZE + next.chunk_size), m.write next_addr 0)

/-- `struct Zone { base, next }`: a borrowed view of a page's first word.
Note the `next` field is a copy of the word at construction time; the
source's `write_refs` / `write_next` update memory but not the copy. -/
structure Zone where
  base : Nat
  next : Nat
deriving DecidableEq, Repr

/-- `impl From<*mut usize> for Zone`: read the packed word at `src`. -/
def Zone.ofMem (m : Mem) (src : Nat) : Zone := ⟨src, m src⟩

/-- `Zone::new(base)`: fresh zone view with packed word 0. -/
def Zone.new (base : Nat) : Zone := ⟨base, 0⟩

/-- `Zone::get_refs`: `next & 4095`. -/
def Zone.get_refs (z : Zone) : Nat := z.next &&& 4095

/-- `Zone::get_next`: `next & !(PAGE_SIZE - 1)`, `NullZone` when 0. -/
def Zone.get_next (z : Zone) : Except KallocError Nat :=
  let next_addr := z.next &&& (USIZE - 1 - (PAGE_SIZE - 1))
  if next_addr = 0 then .error .NullZone else .ok next_addr

/-- `Zone::write_refs(new_count)`: keep the next-address bits from the
struct copy of the word, store `next_addr | new_count` at `base`. -/
def Zone.write_refs (z : Zone) (new_count : Nat) (m : Mem) : Mem :=
  let next_addr := match z.get_next with
    | .error _ => 0
    | .ok p => p
  m.write z.base (next_addr ||| new_count)

/-- `Zone::write_next(new_next)`: keep the refs bits, store
`new_next | refs` at `base`. -/
def Zone.write_next (z : Zone) (new_next : Nat) (m : Mem) : Mem :=
  m.write z.base (new_next ||| z.get_refs)

/-- `Zone::increment_refs`: `MaxRefs` above 510, otherwise write. -/
def Zone.increment_refs (z : Zone) (m : Mem) : Except KallocError Unit × Mem :=
  let new_count := z.get_refs + 1
  if new_count > 510 then (.error .MaxRefs, m)
  else (.ok (), z.write_refs new_count m)

/-- `Zone::decrement_refs`: `usize` subtraction `get_refs() - 1` wraps at
zero; the wrapped value reinterpreted as `isize` is negative, which the
source catches as `MinRefs` (without writing). -/
def Zone.decrement_refs (z : Zone) (m : Mem) : Except KallocError Nat × Mem :=
  let new_count := (z.get_refs + (USIZE - 1)) % USIZE
  if new_count ≥ 2 ^ 63 then (.error .MinRefs, m)
  else (.ok new_count, z.write_refs new_count m)

/-- `Zone::next_zone`: follow the chain, reading the next page's word. -/
def Zone.next_zone (z : Zone) (m : Mem) : Except KallocError Zone :=
  match z.get_next with
  | .ok addr => .ok (Zone.ofMem m addr)
  | .error _ => .error .NullZone

/-- `Zone::free_self(prev_zone)`: assert `refs == 0`, splice `prev_zone`'s
next pointer past this zone, return the page via `pfree` (logged in the
third component). -/
def Zone.free_self (z prev_zone : Zone) (m : Mem) : Option String × Mem × List Nat :=
  if z.get_refs ≠ 0 then (some "assertion failed: refs == 0", m, [])
  else
    match z.next_zone m with
    | .ok next_zone => (none, prev_zone.write_next next_zone.base m, [z.base])
    | .error _ => (none, prev_zone.write_next 0 m, [z.base])

/-- Result of `Zone::scan`: the returned data address on a hit, the memory
after any in-scan merges / allocation, and a fault for the `.expect` in
`alloc_chunk` (or fuel exhaustion, which no page-sized walk reaches). -/
structure ScanRes where
  hit : Option Nat
  mem : Mem
  fault : Option String

/-- `alloc_chunk(size, ptr, zone, head)`: bump the zone's refs count
(fatal on `MaxRefs`), mark the header used and store it at `ptr`, and
split off the excess when the chunk is larger than requested. -/
def alloc_chunk (size ptr : Nat) (zone : Zone) (head : Header) (m : Mem) :
    Option String × Mem :=
  match zone.increment_refs m with
  | (.error _, _) => (some "Maximum zone allocation limit exceeded.", m)
  | (.ok _, m1) =>
    let head := head.set_used
    let m2 := head.write_to ptr m1
    if size ≠ head.chunk_size then (none, (head.split size ptr m2).mem)
    else (none, m2)

/-- The `while curr < end` loop of `Zone::scan`: when the current chunk is
too small or in use, step past it, opportunistically merging two adjacent
free headers; when it fits, allocate it and return the address just past
the header. -/
def Zone.scanLoop (z : Zone) (size endA : Nat) :
    Nat → Nat → Header → Mem → ScanRes
  | 0, _, _, m => ⟨none, m, some "model: fuel exhausted"⟩
  | fuel + 1, curr, head, m =>
    if curr < endA then
      let chunk_size := head.chunk_size
      if chunk_size < size || !head.is_free then
        let prev := head
        let trail := curr
        let curr2 := curr + HEADER_SIZE + chunk_size
        let head2 := Header.ofMem m curr2
        if prev.is_free && head2.is_free then
          let pm := prev.merge head2 curr2 m
          let m3 := pm.1.write_to trail pm.2
          z.scanLoop size endA fuel trail pm.1 m3
        else
          z.scanLoop size endA fuel curr2 head2 m
      else
        match alloc_chunk size curr z head m with
        | (some msg, m2) => ⟨none, m2, some msg⟩
        | (none, m2) => ⟨some (curr + HEADER_SIZE), m2, none⟩
    else ⟨none, m, none⟩

/-- `Zone::scan(size)`: round the request up to 8-byte granularity and walk
the page's headers from `base + 8` to `base + PAGE_SIZE`. -/
def Zone.scan (z : Zone) (m : Mem) (size : Nat) : ScanRes :=
  let size := if size % 8 ≠ 0 then (size + 7) &&& (USIZE - 1 - 7) else size
  let curr := z.base + 8
  let endA := z.base + 8 * (PAGE_SIZE / 8)
  z.scanLoop size endA PAGE_SIZE curr (Header.ofMem m curr) m

/-- `write_zone_header_pair(zone, header)`. -/
def write_zone_header_pair (z : Zone) (h : Header) (m : Mem) : Mem :=
  (m.write z.base z.next).write (z.base + 8) h.fields

/-- `struct Kalloc { head, end }` (`end` is a Lean keyword; `endp` is the
source's `end` field). -/
structure Kalloc where
  head : Nat
  endp : Nat
deriving DecidableEq, Repr

/-- `Kalloc::new(start)`: format the page as the first zone with one
maximal free chunk.  The source asserts the page is aligned; all pages in
this development are. -/
def Kalloc.new (start : Nat) (m : Mem) : Kalloc × Mem :=
  let zone := Zone.new start
  let head := Header.new MAX_CHUNK_SIZE
  (⟨start, start + 0x1000⟩, write_zone_header_pair zone head m)

/-- `Kalloc::grow_pool(tail)`: take one page from the pool (`palloc`),
link it as `tail`'s successor and format it. -/
def Kalloc.grow_pool (tail : Zone) (m : Mem) (pool : List Nat) :
    Except Unit (Zone × Header × Mem × List Nat) :=
  match pool with
  | [] => .error ()
  | page :: rest =>
    let m1 := tail.write_next page m
    let zone := Zone.new page
    let head := Header.new MAX_CHUNK_SIZE
    .ok (zone, head, write_zone_header_pair zone head m1, rest)

/-- The `while let Ok(next) = curr.next_zone()` walk of
`Kalloc::shrink_pool`; falls through to the fatal "zone not in list"
panic when the chain ends. -/
def shrinkLoop : Nat → Zone → Zone → Mem → Option String × Mem × List Nat
  | 0, _, _, m => (some "model: fuel exhausted", m, [])
  | fuel + 1, to_free, curr, m =>
    match curr.next_zone m with
    | .error _ => (some "Tried to free a zone that was not in the list", m, [])
    | .ok next =>
      if to_free.base = next.base then to_free.free_self curr m
      else shrinkLoop fuel to_free next m

/-- `Kalloc::shrink_pool(to_free)`: nothing to do for the head zone;
otherwise walk from `Zone::new(self.head)` looking for the predecessor.
(Note the source builds the cursor with `Zone::new`, whose packed word is
0, not `Zone::from`.) -/
def Kalloc.shrink_pool (k : Kalloc) (to_free : Zone) (m : Mem) :
    Option String × Mem × List Nat :=
  if to_free.base ≠ k.head then shrinkLoop 64 to_free (Zone.new k.head) m
  else (none, m, [])

/-- Outcome of `Kalloc::alloc`: `Ok(addr)`, `Err(e)`, or a panic. -/
inductive AllocOut where
  | ok (addr : Nat)
  | err (e : KallocError)
  | fault (msg : String)
deriving DecidableEq, Repr

/-- Result of `Kalloc::alloc` together with the final memory and the pages
remaining in the page pool. -/
structure AllocRes where
  out : AllocOut
  mem : Mem
  pool : List Nat

/-- Intermediate result of the zone-scanning loop in `Kalloc::alloc`. -/
inductive LoopRes where
  | done (o : AllocOut) (m : Mem)
  | fell (m : Mem)

/-- The `while zone.base <= end` loop of `Kalloc::alloc`: scan the current
zone, return on a hit, otherwise step to the next zone — the `?` on
`next_zone()` returns its `NullZone` error from `alloc` itself. -/
def allocLoop (size endv : Nat) : Nat → Zone → Mem → LoopRes
  | 0, _, m => .done (.fault "model: fuel exhausted") m
  | fuel + 1, zone, m =>
    if zone.base ≤ endv then
      let r := zone.scan m size
      match r.fault with
      | some msg => .done (.fault msg) r.mem
      | none =>
        match r.hit with
        | some ptr => .done (.ok ptr) r.mem
        | none =>
          match zone.next_zone r.mem with
          | .error e => .done (.err e) r.mem
          | .ok z2 => allocLoop size endv fuel z2 r.mem
    else .fell m

/-- `Kalloc::alloc(size)`: walk the zones from `head` while
`zone.base <= self.end - 0x1000`; on falling through, grow the pool off
`trail` (the zone view captured at entry) and carve the request at
`base + ZONE_SIZE + HEADER_SIZE` of the fresh zone. -/
def Kalloc.alloc (k : Kalloc) (m : Mem) (pool : List Nat) (size : Nat) : AllocRes :=
  let curr := k.head
  let endv := k.endp - 0x1000
  let zone := Zone.ofMem m curr
  let trail := zone
  match allocLoop size endv 64 zone m with
  | .done o m1 => ⟨o, m1, pool⟩
  | .fell m1 =>
    match Kalloc.grow_pool trail m1 pool with
    | .error _ => ⟨.err .OOM, m1, pool⟩
    | .ok (zone2, head2, m2, pool2) =>
      let ptr := zone2.base + ZONE_SIZE + HEADER_SIZE
      match alloc_chunk size ptr zone2 head2 m2 with
      | (some msg, m3) => ⟨.fault msg, m3, pool2⟩
      | (none, m3) => ⟨.ok ptr, m3, pool2⟩

/-- Result of `Kalloc::free`: fatal diagnostic (if any), final memory, the
addresses dereferenced (in order), and the pages handed back via `pfree`. -/
structure FreeRes where
  fault : Option String
  mem : Mem
  reads : List Nat
  pfreed : List Nat

/-- The tail of `Kalloc::free` after a successful refs decrement and
`shrink_pool`: read the header following the freed chunk at
`ptr + chunk_size`, merge when it is free, and write the freed chunk's
header back below `ptr`.  (`head` is the freed chunk's header after
`set_unused`; `m2` the memory after `shrink_pool`.) -/
def Kalloc.free_merge_phase (head : Header) (head_ptr next_ptr zbase : Nat) (m2 : Mem)
    (pf : List Nat) : FreeRes :=
  let next := Header.ofMem m2 next_ptr
  let hm := if next.is_free then head.merge next next_ptr m2 else (head, m2)
  ⟨none, hm.1.write_to head_ptr hm.2, [zbase, head_ptr, next_ptr], pf⟩

/-- The middle of `Kalloc::free`: when the refs count hit 0, reclaim the
page through `shrink_pool` (which can panic fatally); then fall through to
the merge phase. -/
def Kalloc.free_shrink_phase (k : Kalloc) (zone : Zone) (head : Header) (ptr zbase count : Nat)
    (m1 : Mem) : FreeRes :=
  let s := if count = 0 then k.shrink_pool zone m1 else (none, m1, [])
  match s with
  | (some msg, m2, pf) => ⟨some msg, m2, [zbase, ptr - HEADER_SIZE], pf⟩
  | (none, m2, pf) =>
    Kalloc.free_merge_phase head (ptr - HEADER_SIZE) (ptr + head.chunk_size) zbase m2 pf

/-- `Kalloc::free(ptr)`: mask down to the page to view the zone, check the
header just below `ptr` is used (fatal "Kalloc double free." otherwise),
mark it free, decrement the refs count, then (in the phase functions
above, which split the one source function at its sequence points) shrink
the pool at refs 0, merge with the following chunk when that is free, and
write the header back. -/
def Kalloc.free (k : Kalloc) (m : Mem) (ptr : Nat) : FreeRes :=
  let zbase := ptr &&& (USIZE - 1 - (PAGE_SIZE - 1))
  let zone := Zone.ofMem m zbase
  let head_ptr := ptr - HEADER_SIZE
  let head := Header.ofMem m head_ptr
  if head.is_free then
    ⟨some "Kalloc double free.", m, [zbase, head_ptr], []⟩
  else
    let head := head.set_unused
    match zone.decrement_refs m with
    | (.error _, m1) => ⟨some "Negative zone refs count", m1, [zbase, head_ptr], []⟩
    | (.ok count, m1) => k.free_shrink_phase zone head ptr zbase count m1

/-! ### Bit-manipulation helper lemmas -/

theorem and_4095_eq_mod (x : Nat) : x &&& 4095 = x % 4096 := by
  have h := Nat.and_pow_two_sub_one_eq_mod x 12
  norm_num at h
  exact h

theorem and_4095_lt (x : Nat) : x &&& 4095 < 4096 := by
  rw [and_4095_eq_mod]
  exact Nat.mod_lt _ (by norm_num)

theorem and_or_right (x y z : Nat) : (x ||| y) &&& z = (x &&& z) ||| (y &&& z) := by
  rw [Nat.and_comm, Nat.and_or_distrib_left, Nat.and_comm z x, Nat.and_comm z y]

theorem and_4096_of_lt {x : Nat} (h : x < 4096) : x &&& 4096 = 0 := by
  have hb : x.testBit 12 = false := Nat.testBit_lt_two_pow (by norm_num; exact h)
  have h2 := Nat.and_two_pow x 12
  norm_num [hb] at h2
  exact h2

/-- `set_unused` clears the used bit. -/
theorem set_unused_and_4096 (x : Nat) : (x &&& (USIZE - 1 - HEADER_USED)) &&& 4096 = 0 := by
  rw [Nat.and_assoc]
  have : (USIZE - 1 - HEADER_USED) &&& 4096 = 0 := by decide
  rw [this, Nat.and_zero]

/-- `set_unused` preserves the size bits. -/
theorem set_unused_and_4095 (x : Nat) : (x &&& (USIZE - 1 - HEADER_USED)) &&& 4095 = x &&& 4095 := by
  rw [Nat.and_assoc]
  have : (USIZE - 1 - HEADER_USED) &&& 4095 = 4095 := by decide
  rw [this]

/-- `set_size` installs exactly the (sub-4096) size bits. -/
theorem set_size_and_4095 {s : Nat} (x : Nat) (hs : s < 4096) :
    ((x &&& (USIZE - 1 - 0xFFF)) ||| s) &&& 4095 = s := by
  rw [and_or_right, Nat.and_assoc]
  have h1 : (USIZE - 1 - 0xFFF) &&& 4095 = 0 := by decide
  rw [h1, Nat.and_zero, and_4095_eq_mod, Nat.mod_eq_of_lt hs, Nat.zero_or]

/-- `set_size` with a sub-4096 size preserves the used bit. -/
theorem set_size_and_4096 {s : Nat} (x : Nat) (hs : s < 4096) :
    ((x &&& (USIZE - 1 - 0xFFF)) ||| s) &&& 4096 = x &&& 4096 := by
  rw [and_or_right, Nat.and_assoc, and_4096_of_lt hs]
  have h1 : (USIZE - 1 - 0xFFF) &&& 4096 = 4096 := by decide
  rw [h1, Nat.or_zero]

/-! ### `Zone.decrement_refs` unfolding lemmas -/

theorem decrement_refs_zero (z : Zone) (m : Mem) (h : z.get_refs = 0) :
    z.decrement_refs m = (.error .MinRefs, m) := by
  have : (z.get_refs + (USIZE - 1)) % USIZE = USIZE - 1 := by
    rw [h, Nat.zero_add, Nat.mod_eq_of_lt (by norm_num [USIZE])]
  simp only [Zone.decrement_refs, this]
  rw [if_pos (by norm_num [USIZE])]

theorem decrement_refs_pos (z : Zone) (m : Mem) (h : 1 ≤ z.get_refs) :
    z.decrement_refs m = (.ok (z.get_refs - 1),
      m.write z.base ((z.next &&& (USIZE - 1 - (PAGE_SIZE - 1))) ||| (z.get_refs - 1))) := by
  have hlt : z.get_refs < 4096 := by
    simpa [Zone.get_refs] using and_4095_lt z.next
  have hmod : (z.get_refs + (USIZE - 1)) % USIZE = z.get_refs - 1 := by
    have h1 : z.get_refs + (USIZE - 1) = USIZE + (z.get_refs - 1) := by
      have : 1 ≤ USIZE := by norm_num [USIZE]
      omega
    rw [h1, Nat.add_mod_left, Nat.mod_eq_of_lt (by norm_num [USIZE]; omega)]
  simp only [Zone.decrement_refs, hmod]
  rw [if_neg (by norm_num [USIZE]; omega)]
  unfold Zone.write_refs Zone.get_next
  by_cases h0 : z.next &&& (USIZE - 1 - (PAGE_SIZE - 1)) = 0
  · simp [h0]
  · simp [h0]

/-! ### Concrete configurations

All pages are 4096-byte aligned; memory defaults to zero elsewhere.
A header word `8176 = 4096 ||| 4080` is a used, maximal (4080-byte) chunk;
`4104 = 4096 ||| 8` is a used 8-byte chunk. -/

/-- Config A: a pool of a single zone at `0x1000`, completely allocated
(refs 1, one used 4080-byte chunk at `0x1008`). -/
def mA : Mem := fun a => if a = 4096 then 1 else if a = 4104 then 8176 else 0

/-- The `Kalloc` owning config A/B/D (head `0x1000`, `end` `0x2000`). -/
def kA : Kalloc := ⟨4096, 8192⟩

/-- Config B: two zones — the full head zone at `0x1000` (refs 1, used
4080-byte chunk) linked to a second, empty zone at `0x2000` (refs 0, free
4080-byte chunk). -/
def mB : Mem := fun a =>
  if a = 4096 then 8193 else if a = 4104 then 8176 else
  if a = 8192 then 0 else if a = 8200 then 4080 else 0

/-- Config C: a zone at `0x1000` with free chunks of sizes 64 (at
`0x1008`) and 4000 (at `0x1050`) in address order. -/
def mC : Mem := fun a => if a = 4104 then 64 else if a = 4176 then 4000 else 0

/-- Config D: the head zone at `0x1000` (full) linked to a zone at
`0x2000` whose single live chunk is the used 8-byte chunk at `0x2008`
(refs 1).  Freeing `0x2010` drives that zone's refs count to 0. -/
def mD : Mem := fun a =>
  if a = 4096 then 8193 else if a = 4104 then 8176 else
  if a = 8192 then 1 else if a = 8200 then 4104 else 0

/-- Config E: a single head zone at `0x1000` with refs 2 and a used
4080-byte chunk at `0x1008` whose payload ends exactly at the page
boundary `0x2000`. -/
def mE : Mem := fun a => if a = 4096 then 2 else if a = 4104 then 8176 else 0

/-! ### Claim theorems -/

/-- Claim C6: for a chunk of size `old_size` and any `new_size` with
`old_size ≥ new_size + header_size`, `Header::split(new_size, addr)`
shrinks the chunk's header to `new_size` preserving its used bit, writes a
new free header of size `old_size - new_size - header_size` at
`addr + header_size + new_size`, returns that remainder header and
address, and both headers are readable at those addresses. -/
theorem c6_split_correct (h : Header) (new_size addr : Nat) (m : Mem)
    (hge : new_size + HEADER_SIZE ≤ h.chunk_size) :
    ((h.split new_size addr m).self.chunk_size = new_size ∧
      (h.split new_size addr m).self.is_free = h.is_free) ∧
    (h.split new_size addr m).addr = addr + HEADER_SIZE + new_size ∧
    ((h.split new_size addr m).next.chunk_size = h.chunk_size - new_size - HEADER_SIZE ∧
      (h.split new_size addr m).next.is_free = true) ∧
    (h.split new_size addr m).mem (addr + HEADER_SIZE + new_size) =
      (h.split new_size addr m).next.fields ∧
    (h.split new_size addr m).mem addr = (h.split new_size addr m).self.fields := by
  have hU : USIZE = 18446744073709551616 := by norm_num [USIZE]
  have hC : h.chunk_size = h.fields &&& 4095 := rfl
  have hold : h.fields &&& 4095 < 4096 := and_4095_lt h.fields
  have hgef : new_size + 8 ≤ h.fields &&& 4095 := by
    rw [hC] at hge
    simpa [HEADER_SIZE] using hge
  have hns : new_size < 4096 := by omega
  have hsub1 : (USIZE + (h.fields &&& 4095) - new_size) % USIZE
      = (h.fields &&& 4095) - new_size := by
    rw [hU]; omega
  have hsub2 : (USIZE + ((h.fields &&& 4095) - new_size) - HEADER_SIZE) % USIZE
      = (h.fields &&& 4095) - new_size - HEADER_SIZE := by
    simp only [HEADER_SIZE]; rw [hU]; omega
  have hrem : (h.fields &&& 4095) - new_size - HEADER_SIZE < 4096 := by
    simp only [HEADER_SIZE]; omega
  refine ⟨⟨?_, ?_⟩, ?_, ⟨?_, ?_⟩, ?_, ?_⟩
  · simp only [Header.split, Header.set_size, Header.chunk_size]
    exact set_size_and_4095 h.fields hns
  · simp only [Header.split, Header.set_size, Header.is_free, HEADER_USED]
    rw [set_size_and_4096 h.fields hns]
  · simp [Header.split]
  · simp only [Header.split, Header.chunk_size, hsub1, hsub2, hC]
    rw [and_4095_eq_mod, Nat.mod_eq_of_lt hrem]
  · simp only [Header.split, Header.chunk_size, hsub1, hsub2, Header.is_free, HEADER_USED]
    rw [and_4096_of_lt hrem]
    rfl
  · simp [Header.split, Header.write_to]
  · simp only [Header.split, Header.write_to]
    rw [Mem.write_other _ _ _ _ (by simp [HEADER_SIZE]; omega), Mem.write_self]

/-- Witness for C6: splitting a used maximal 4080-byte chunk (header word
`8176`) at address `0x1008` to carve 32 bytes leaves a used 32-byte chunk
and a free remainder of `4080 - 32 - 8 = 4040` bytes at `0x1030`. -/
theorem c6_split_correct_witness :
    (32 : Nat) + HEADER_SIZE ≤ (Header.mk 8176).chunk_size ∧
    ((((Header.mk 8176).split 32 4104 (fun _ => 0)).self.chunk_size = 32 ∧
      ((Header.mk 8176).split 32 4104 (fun _ => 0)).self.is_free = (Header.mk 8176).is_free) ∧
     ((Header.mk 8176).split 32 4104 (fun _ => 0)).addr = 4104 + HEADER_SIZE + 32 ∧
     (((Header.mk 8176).split 32 4104 (fun _ => 0)).next.chunk_size =
        (Header.mk 8176).chunk_size - 32 - HEADER_SIZE ∧
      ((Header.mk 8176).split 32 4104 (fun _ => 0)).next.is_free = true) ∧
     ((Header.mk 8176).split 32 4104 (fun _ => 0)).mem (4104 + HEADER_SIZE + 32) =
       ((Header.mk 8176).split 32 4104 (fun _ => 0)).next.fields ∧
     ((Header.mk 8176).split 32 4104 (fun _ => 0)).mem 4104 =
       ((Header.mk 8176).split 32 4104 (fun _ => 0)).self.fields) :=
  ⟨by decide, c6_split_correct ⟨8176⟩ 32 4104 (fun _ => 0) (by decide)⟩

/-- Claim C7: on a zone whose refs count is 0, `decrement_refs` returns
`MinRefs` and leaves memory (in particular the packed word) unchanged; on
a zone with refs > 0 it returns `Ok` with the decremented count and writes
the packed word back with the same next-address bits and refs one lower. -/
theorem c7_decrement_refs_spec (z0 z1 : Zone) (m0 m1 : Mem)
    (h0 : z0.get_refs = 0) (h1 : 0 < z1.get_refs) :
    z0.decrement_refs m0 = (.error .MinRefs, m0) ∧
    (z1.decrement_refs m1).1 = .ok (z1.get_refs - 1) ∧
    (z1.decrement_refs m1).2 =
      m1.write z1.base ((z1.next &&& (USIZE - 1 - (PAGE_SIZE - 1))) ||| (z1.get_refs - 1)) := by
  refine ⟨decrement_refs_zero z0 m0 h0, ?_, ?_⟩
  · rw [decrement_refs_pos z1 m1 h1]
  · rw [decrement_refs_pos z1 m1 h1]

/-- Witness for C7: a zone with refs 0 (packed word 0) and a zone with
refs 1 linked to `0x2000` (packed word `8193`). -/
theorem c7_decrement_refs_spec_witness :
    (Zone.mk 4096 0).get_refs = 0 ∧ 0 < (Zone.mk 4096 8193).get_refs ∧
    ((Zone.mk 4096 0).decrement_refs mA = (.error .MinRefs, mA) ∧
      ((Zone.mk 4096 8193).decrement_refs mA).1 = .ok ((Zone.mk 4096 8193).get_refs - 1) ∧
      ((Zone.mk 4096 8193).decrement_refs mA).2 =
        mA.write 4096 (((8193 : Nat) &&& (USIZE - 1 - (PAGE_SIZE - 1))) |||
          ((Zone.mk 4096 8193).get_refs - 1))) :=
  ⟨by decide, by decide, c7_decrement_refs_spec ⟨4096, 0⟩ ⟨4096, 8193⟩ mA mA (by decide) (by decide)⟩

theorem chunk_size_used {s : Nat} (hs : s < 4096) :
    (Header.mk (s ||| HEADER_USED)).chunk_size = s := by
  simp only [Header.chunk_size, HEADER_USED]
  rw [show (0xFFF : Nat) = 4095 from rfl, and_or_right]
  have h1 : (4096 : Nat) &&& 4095 = 0 := by decide
  rw [h1, and_4095_eq_mod, Nat.mod_eq_of_lt hs, Nat.or_zero]

theorem chunk_size_plain {s : Nat} (hs : s < 4096) : (Header.mk s).chunk_size = s := by
  simp only [Header.chunk_size]
  rw [show (0xFFF : Nat) = 4095 from rfl, and_4095_eq_mod, Nat.mod_eq_of_lt hs]

theorem is_free_used {s : Nat} (hs : s < 4096) :
    (Header.mk (s ||| HEADER_USED)).is_free = false := by
  simp only [Header.is_free, HEADER_USED]
  rw [and_or_right, and_4096_of_lt hs]
  have h1 : (4096 : Nat) &&& 4096 = 4096 := by decide
  rw [h1, Nat.zero_or]
  rfl

theorem is_free_plain {s : Nat} (hs : s < 4096) : (Header.mk s).is_free = true := by
  simp only [Header.is_free, HEADER_USED]
  rw [and_4096_of_lt hs]
  rfl

/-- Claim C1: the source documents `alloc` as scanning every zone in list
order (doc comment steps 1-2b) and first-fit within a zone.  The in-zone
first-fit part holds (config C: chunks [64, 4000], a 32-byte request is
carved from the 64-byte chunk at `0x1008`, leaving a used 32-byte header
`4128` there and a free 24-byte remainder at `0x1030`).  But the loop
bound `zone.base <= self.end - 0x1000` compares against the first page
only (`end` is never advanced), so in config B the reachable second zone
at `0x2000` — whose own `scan` would succeed at `0x2010` — is never
scanned and `alloc` falls through to `grow_pool`, returning `OOM` on an
empty page pool. -/
theorem c1_alloc_skips_reachable_zone :
    (Kalloc.alloc kA mB [] 8).out = AllocOut.err KallocError.OOM ∧
    ((Zone.ofMem mB 8192).scan mB 8).hit = some 8208 ∧
    ((Zone.ofMem mC 4096).scan mC 32).hit = some 4112 ∧
    ((Zone.ofMem mC 4096).scan mC 32).mem 4104 = 4128 ∧
    ((Zone.ofMem mC 4096).scan mC 32).mem 4144 = 24 :=
  ⟨rfl, rfl, rfl, rfl, rfl⟩

/-- Claim C2: `alloc` is specified to return only `Ok(addr)` or
`Err(OOM)`.  But on a pool consisting of a single full zone (config A)
the `?` on `zone.next_zone()` propagates the chain-end sentinel: `alloc`
returns `Err(NullZone)` to the caller without ever touching the page pool
(the pool still holds its page afterwards). -/
theorem c2_alloc_returns_nullzone :
    (Kalloc.alloc kA mA [12288] 8).out = AllocOut.err KallocError.NullZone ∧
    (Kalloc.alloc kA mA [12288] 8).pool = [12288] :=
  ⟨rfl, rfl⟩

/-- Claim C3: on the grow path (config B with page `0x3000` available),
`alloc` returns `Ok(0x3010)` but: the fresh zone's first header at
`0x3008` is left free with size 4080 (the chunk was not placed at the
start of the chunk area), the used 8-byte header `4104` is written at
`0x3010` — the very address returned, so the returned address equals the
new chunk's header address, not header address + header size — and the
new page is linked as the successor of the *head* zone (`0x1000`'s word
becomes `12289 = 0x3000 ||| 1`), unlinking the tail zone `0x2000` whose
word is left unreachable. -/
theorem c3_grow_path_header_misplaced :
    (Kalloc.alloc kA mB [12288] 8).out = AllocOut.ok 12304 ∧
    (Kalloc.alloc kA mB [12288] 8).mem 12296 = 4080 ∧
    (Kalloc.alloc kA mB [12288] 8).mem 12304 = 4104 ∧
    (Kalloc.alloc kA mB [12288] 8).mem 4096 = 12289 ∧
    (Kalloc.alloc kA mB [12288] 8).mem 8192 = 0 ∧
    (Kalloc.alloc kA mB [12288] 8).pool = [] :=
  ⟨rfl, rfl, rfl, rfl, rfl, rfl⟩

/-- Claim C4: freeing the last live chunk of the non-head zone `0x2000`
(config D) does decrement its refs count to 0 (`0x2000`'s word becomes 0),
but `shrink_pool` builds its cursor with `Zone::new(self.head)` — whose
packed word is 0, not the head zone's real word — so the predecessor walk
terminates immediately and the function panics with the zone-not-in-list
diagnostic: the zone is never unlinked (the head's next word still holds
`8193`), `pfree` is never called, and the freed chunk's header at `0x2008`
is still marked used in memory. -/
theorem c4_shrink_pool_panics :
    (Kalloc.free kA mD 8208).fault = some "Tried to free a zone that was not in the list" ∧
    (Kalloc.free kA mD 8208).pfreed = [] ∧
    (Kalloc.free kA mD 8208).mem 4096 = 8193 ∧
    (Kalloc.free kA mD 8208).mem 8192 = 0 ∧
    (Kalloc.free kA mD 8208).mem 8200 = 4104 :=
  ⟨rfl, rfl, rfl, rfl, rfl⟩

/-- Counterexample to claim C9 at config D: freeing `0x2010` reduces the
refs count of the non-head zone `0x2000` (refs 1, page of `0x2010` differs
from `head`) to zero, yet `pfree` is never invoked (`pfreed = []`) and
`free` does not finish normally — it panics inside `shrink_pool` — so the
page is not "returned to the Page Pool before free finishes". -/
theorem c9_no_pfree_counterexample :
    (mD (8208 &&& (USIZE - 1 - (PAGE_SIZE - 1)))) &&& 4095 = 1 ∧
    (8208 &&& (USIZE - 1 - (PAGE_SIZE - 1))) ≠ kA.head ∧
    (mD (8208 - HEADER_SIZE)) &&& 4096 ≠ 0 ∧
    (Kalloc.free kA mD 8208).pfreed = [] ∧
    (Kalloc.free kA mD 8208).fault ≠ none := by
  refine ⟨by decide, by decide, by decide, rfl, by decide⟩

/-- Claim C8: for every header with a valid size (a multiple of 8 in
`[0, 4080]`) and either used-bit value, writing it with `write_to` and
reconstructing a header from that address yields an equal header, with
size and used bit preserved exactly. -/
theorem c8_header_roundtrip (h : Header) (s a : Nat) (u : Bool) (m : Mem)
    (h8 : s % 8 = 0) (hle : s ≤ MAX_CHUNK_SIZE)
    (henc : h.fields = if u then s ||| HEADER_USED else s) :
    Header.ofMem (h.write_to a m) a = h ∧
    (Header.ofMem (h.write_to a m) a).chunk_size = s ∧
    (Header.ofMem (h.write_to a m) a).is_free = !u := by
  have hs : s < 4096 := by
    simp [MAX_CHUNK_SIZE] at hle; omega
  have hmem : Header.ofMem (h.write_to a m) a = h := by
    simp [Header.ofMem, Header.write_to]
  refine ⟨hmem, ?_, ?_⟩
  · rw [hmem]
    obtain ⟨f⟩ := h
    simp only at henc
    subst henc
    cases u with
    | false => exact chunk_size_plain hs
    | true => exact chunk_size_used hs
  · rw [hmem]
    obtain ⟨f⟩ := h
    simp only at henc
    subst henc
    cases u with
    | false => exact is_free_plain hs
    | true => exact is_free_used hs

/-- Witness for C8: a used 32-byte header (word `4128 = 32 ||| 4096`)
written to `0x1008` of the all-zero memory round-trips exactly. -/
theorem c8_header_roundtrip_witness :
    (32 : Nat) % 8 = 0 ∧ (32 : Nat) ≤ MAX_CHUNK_SIZE ∧
    (Header.mk 4128).fields = (if true then 32 ||| HEADER_USED else 32) ∧
    (Header.ofMem ((Header.mk 4128).write_to 4104 (fun _ => 0)) 4104 = Header.mk 4128 ∧
      (Header.ofMem ((Header.mk 4128).write_to 4104 (fun _ => 0)) 4104).chunk_size = 32 ∧
      (Header.ofMem ((Header.mk 4128).write_to 4104 (fun _ => 0)) 4104).is_free = !true) :=
  ⟨by decide, by decide, by decide,
    c8_header_roundtrip ⟨4128⟩ 32 4104 true (fun _ => 0) (by decide) (by decide) (by decide)⟩

/-! ### Symbolic lemmas about `scan` and `free` -/

/-- Any hit returned by the scan loop allocates a header strictly below
the loop bound `endA`: the returned data address is `curr + 8` for the
`curr < endA` of the successful iteration. -/
theorem scanLoop_hit_lt (z : Zone) (size endA : Nat) :
    ∀ (fuel curr : Nat) (head : Header) (m : Mem) (d : Nat),
      (z.scanLoop size endA fuel curr head m).hit = some d → d - 8 < endA := by
  intro fuel
  induction fuel with
  | zero =>
    intro curr head m d h
    simp [Zone.scanLoop] at h
  | succ f ih =>
    intro curr head m d h
    simp only [Zone.scanLoop] at h
    by_cases hcu : curr < endA
    · rw [if_pos hcu] at h
      by_cases hsm : (head.chunk_size < size || !head.is_free) = true
      · rw [if_pos hsm] at h
        by_cases hmg : (head.is_free &&
            (Header.ofMem m (curr + HEADER_SIZE + head.chunk_size)).is_free) = true
        · rw [if_pos hmg] at h
          exact ih _ _ _ _ h
        · rw [if_neg hmg] at h
          exact ih _ _ _ _ h
      · rw [if_neg hsm] at h
        rcases halloc : alloc_chunk size curr z head m with ⟨fl, m2⟩
        rw [halloc] at h
        cases fl with
        | some msg => simp at h
        | none =>
          simp at h
          simp only [HEADER_SIZE] at h
          omega
    · rw [if_neg hcu] at h
      simp at h

/-- `Zone::scan` only ever hands out chunks whose header lies inside the
page: its walk is bounded at `base + PAGE_SIZE`. -/
theorem scan_hit_sub8_lt (z : Zone) (m : Mem) (size d : Nat)
    (h : (z.scan m size).hit = some d) : d - 8 < z.base + PAGE_SIZE := by
  simp only [Zone.scan] at h
  have h2 := scanLoop_hit_lt z _ _ _ _ _ _ _ h
  have he : z.base + 8 * (PAGE_SIZE / 8) = z.base + PAGE_SIZE := by
    norm_num [PAGE_SIZE]
  rw [he] at h2
  exact h2

/-- The cursor of `shrink_pool`'s predecessor walk is built with
`Zone::new`, whose packed word is 0, so its `next_zone` is the `NullZone`
sentinel: the walk body never runs and falls to the fatal panic at once,
whatever the fuel. -/
theorem shrinkLoop_new_head (fuel : Nat) (tf : Zone) (b : Nat) (m : Mem) :
    shrinkLoop (fuel + 1) tf (Zone.new b) m
      = (some "Tried to free a zone that was not in the list", m, []) := by
  simp [shrinkLoop, Zone.next_zone, Zone.get_next, Zone.new]

/-- `shrink_pool` on any zone other than the head zone panics with the
zone-not-in-list diagnostic, for every memory state. -/
theorem shrink_pool_not_head (k : Kalloc) (z : Zone) (m : Mem) (h : z.base ≠ k.head) :
    k.shrink_pool z m = (some "Tried to free a zone that was not in the list", m, []) := by
  simp only [Kalloc.shrink_pool]
  rw [if_pos h, show (64 : Nat) = 63 + 1 from rfl]
  exact shrinkLoop_new_head 63 z k.head m

/-- `shrink_pool` on the head zone does nothing: the head page is
structurally retained. -/
theorem shrink_pool_head (k : Kalloc) (z : Zone) (m : Mem) (h : z.base = k.head) :
    k.shrink_pool z m = (none, m, []) := by
  simp only [Kalloc.shrink_pool]
  rw [if_neg (fun hn => hn h)]

section SymbolicFree

/- `decrement_refs` and `shrink_pool` are handled through the unfolding
lemmas above; keeping them opaque here stops `simp` from descending into
the `% 2^64` arithmetic of their bodies. -/
attribute [local irreducible] Zone.decrement_refs Kalloc.shrink_pool

/-- A `free` call that completes without a fatal diagnostic dereferences
exactly the zone word, the header below the pointer, and the word just
past the freed chunk's payload at `ptr + chunk_size`. -/
theorem free_ok_reads (k : Kalloc) (m : Mem) (ptr : Nat)
    (h : (Kalloc.free k m ptr).fault = none) :
    (Kalloc.free k m ptr).reads =
      [ptr &&& (USIZE - 1 - (PAGE_SIZE - 1)), ptr - HEADER_SIZE,
        ptr + ((m (ptr - HEADER_SIZE)) &&& 4095)] := by
  by_cases h1 : (Header.ofMem m (ptr - HEADER_SIZE)).is_free = true
  · exfalso
    simp only [Kalloc.free, if_pos h1] at h
    simp at h
  · rcases hdec : Zone.decrement_refs
        (Zone.ofMem m (ptr &&& (USIZE - 1 - (PAGE_SIZE - 1)))) m with ⟨e, m1⟩
    cases e with
    | error err =>
      exfalso
      simp only [Kalloc.free, if_neg h1, hdec] at h
      simp at h
    | ok count =>
      simp only [Kalloc.free, if_neg h1, hdec] at h ⊢
      rcases hs : (if count = 0
          then k.shrink_pool (Zone.ofMem m (ptr &&& (USIZE - 1 - (PAGE_SIZE - 1)))) m1
          else (none, m1, ([] : List Nat))) with ⟨sf, m2, pf⟩
      cases sf with
      | some msg =>
        exfalso
        simp only [Kalloc.free_shrink_phase, hs] at h
        simp at h
      | none =>
        simp only [Kalloc.free_shrink_phase, hs, Kalloc.free_merge_phase]
        simp only [Header.chunk_size, Header.set_unused, Header.ofMem, set_unused_and_4095]

/-- Claim C10: whenever `free` completes normally on a chunk whose payload
ends exactly at its page's boundary (`ptr + chunk_size` equals the page
base plus `PAGE_SIZE`), the forward-merge check dereferences that very
address — the first word of the next physical page, outside the zone
being freed — because the read at `ptr + chunk_size` carries no
page-bound check; by contrast `scan` bounds its walk at the page end, so
a successful scan's chunk header always lies inside the page. -/
theorem c10_free_reads_past_page (k : Kalloc) (m : Mem) (ptr : Nat)
    (z : Zone) (mz : Mem) (sz d : Nat)
    (hok : (Kalloc.free k m ptr).fault = none)
    (htile : ptr + ((m (ptr - HEADER_SIZE)) &&& 4095)
      = (ptr &&& (USIZE - 1 - (PAGE_SIZE - 1))) + PAGE_SIZE)
    (hscan : (z.scan mz sz).hit = some d) :
    ((ptr &&& (USIZE - 1 - (PAGE_SIZE - 1))) + PAGE_SIZE) ∈ (Kalloc.free k m ptr).reads ∧
    d - 8 < z.base + PAGE_SIZE := by
  refine ⟨?_, scan_hit_sub8_lt z mz sz d hscan⟩
  rw [free_ok_reads k m ptr hok, ← htile]
  simp

/-- Claim C9 (amended): whenever `free` reduces a non-head zone's refs
count to 0, it panics inside `shrink_pool` with the zone-not-in-list
diagnostic *before* any `pfree`: no page is returned to the Page Pool,
and the subsequent read of the following word and write-back of the freed
chunk's header never execute (the header below `ptr` is left untouched in
memory). -/
theorem c9_free_panics_before_pfree (k : Kalloc) (m : Mem) (ptr : Nat)
    (hused : (m (ptr - HEADER_SIZE)) &&& 4096 ≠ 0)
    (hrefs : (m (ptr &&& (USIZE - 1 - (PAGE_SIZE - 1)))) &&& 4095 = 1)
    (hnh : (ptr &&& (USIZE - 1 - (PAGE_SIZE - 1))) ≠ k.head)
    (hlo : (ptr &&& (USIZE - 1 - (PAGE_SIZE - 1))) + 16 ≤ ptr) :
    (Kalloc.free k m ptr).fault = some "Tried to free a zone that was not in the list" ∧
    (Kalloc.free k m ptr).pfreed = [] ∧
    (Kalloc.free k m ptr).mem (ptr - HEADER_SIZE) = m (ptr - HEADER_SIZE) := by
  have h1 : ¬((Header.ofMem m (ptr - HEADER_SIZE)).is_free = true) := by
    simp [Header.is_free, Header.ofMem, HEADER_USED]
    exact hused
  have hz : 1 ≤ (Zone.ofMem m (ptr &&& (USIZE - 1 - (PAGE_SIZE - 1)))).get_refs := by
    show 1 ≤ (m (ptr &&& (USIZE - 1 - (PAGE_SIZE - 1)))) &&& 4095
    omega
  have hdec : Zone.decrement_refs (Zone.ofMem m (ptr &&& (USIZE - 1 - (PAGE_SIZE - 1)))) m
      = (.ok 0, Mem.write m (ptr &&& (USIZE - 1 - (PAGE_SIZE - 1)))
          ((m (ptr &&& (USIZE - 1 - (PAGE_SIZE - 1)))) &&& (USIZE - 1 - (PAGE_SIZE - 1)))) := by
    have h2 := decrement_refs_pos (Zone.ofMem m (ptr &&& (USIZE - 1 - (PAGE_SIZE - 1)))) m hz
    simpa [Zone.ofMem, Zone.get_refs, hrefs] using h2
  have hshr := shrink_pool_not_head k (Zone.ofMem m (ptr &&& (USIZE - 1 - (PAGE_SIZE - 1))))
    (Mem.write m (ptr &&& (USIZE - 1 - (PAGE_SIZE - 1)))
      ((m (ptr &&& (USIZE - 1 - (PAGE_SIZE - 1)))) &&& (USIZE - 1 - (PAGE_SIZE - 1))))
    (show (Zone.ofMem m (ptr &&& (USIZE - 1 - (PAGE_SIZE - 1)))).base ≠ k.head from hnh)
  have hfree : Kalloc.free k m ptr = ⟨some "Tried to free a zone that was not in the list",
      Mem.write m (ptr &&& (USIZE - 1 - (PAGE_SIZE - 1)))
        ((m (ptr &&& (USIZE - 1 - (PAGE_SIZE - 1)))) &&& (USIZE - 1 - (PAGE_SIZE - 1))),
      [ptr &&& (USIZE - 1 - (PAGE_SIZE - 1)), ptr - HEADER_SIZE], []⟩ := by
    simp only [Kalloc.free, if_neg h1, hdec, Kalloc.free_shrink_phase]
    rw [if_pos trivial, hshr]
  rw [hfree]
  refine ⟨rfl, rfl, ?_⟩
  refine Mem.write_other _ _ _ _ ?_
  simp only [HEADER_SIZE]
  omega

/-- A header produced by `set_size` on a `set_unused` header with a
sub-4096 size is marked free. -/
theorem merged_header_free {s : Nat} (x : Nat) (hs : s < 4096) :
    ((((x &&& (USIZE - 1 - HEADER_USED)) &&& (USIZE - 1 - 0xFFF)) ||| s) &&& 4096) = 0 := by
  rw [and_or_right,
    Nat.and_assoc (x &&& (USIZE - 1 - HEADER_USED)) (USIZE - 1 - 0xFFF) 4096]
  have hc : (USIZE - 1 - 0xFFF) &&& 4096 = 4096 := by decide
  rw [hc, set_unused_and_4096, and_4096_of_lt hs]
  rfl

/-- Unfolding of `Kalloc::free` down to the refs decrement, with the page
mask abstracted into `zb` to keep the terms small. -/
theorem free_unfold (k : Kalloc) (m : Mem) (ptr zb : Nat)
    (hzb : ptr &&& (USIZE - 1 - (PAGE_SIZE - 1)) = zb) :
    Kalloc.free k m ptr =
      (if (Header.ofMem m (ptr - HEADER_SIZE)).is_free then
        ⟨some "Kalloc double free.", m, [zb, ptr - HEADER_SIZE], []⟩
      else
        match (Zone.ofMem m zb).decrement_refs m with
        | (.error _, m1) => ⟨some "Negative zone refs count", m1, [zb, ptr - HEADER_SIZE], []⟩
        | (.ok count, m1) =>
          k.free_shrink_phase (Zone.ofMem m zb)
            ((Header.ofMem m (ptr - HEADER_SIZE)).set_unused) ptr zb count m1) := by
  subst hzb
  rfl

/-- Claim C5: on a live heap state (used header below `ptr`, zone refs at
least 1 and consistent with the head-zone rule, and a following header
that is either used or merges to a sub-4096 size — as after any paired
`alloc`), the first `free` completes without diagnostic and leaves the
header below `ptr` marked free in memory, and calling `free` a second
time on the same address trips the fatal "Kalloc double free."
assertion. -/
theorem c5_double_free_detected (k : Kalloc) (m : Mem) (ptr : Nat)
    (hused : (m (ptr - HEADER_SIZE)) &&& 4096 ≠ 0)
    (hlo : (ptr &&& (USIZE - 1 - (PAGE_SIZE - 1))) + 16 ≤ ptr)
    (hrefs : 1 ≤ (m (ptr &&& (USIZE - 1 - (PAGE_SIZE - 1)))) &&& 4095)
    (hhead : (m (ptr &&& (USIZE - 1 - (PAGE_SIZE - 1)))) &&& 4095 = 1 →
      (ptr &&& (USIZE - 1 - (PAGE_SIZE - 1))) = k.head)
    (hmerge : (m (ptr + ((m (ptr - HEADER_SIZE)) &&& 4095))) &&& 4096 ≠ 0 ∨
      ((m (ptr - HEADER_SIZE)) &&& 4095) + 8 +
        ((m (ptr + ((m (ptr - HEADER_SIZE)) &&& 4095))) &&& 4095) < 4096) :
    (Kalloc.free k m ptr).fault = none ∧
    ((Kalloc.free k m ptr).mem (ptr - HEADER_SIZE)) &&& 4096 = 0 ∧
    (Kalloc.free k (Kalloc.free k m ptr).mem ptr).fault = some "Kalloc double free." := by
  obtain ⟨zb, hzb⟩ : ∃ zb, ptr &&& (USIZE - 1 - (PAGE_SIZE - 1)) = zb := ⟨_, rfl⟩
  rw [hzb] at hlo hrefs hhead
  have h1 : ¬((Header.ofMem m (ptr - HEADER_SIZE)).is_free = true) := by
    simp only [Header.is_free, Header.ofMem, HEADER_USED, beq_iff_eq]
    exact hused
  have hdec : (Zone.ofMem m zb).decrement_refs m
      = (.ok (((m zb) &&& 4095) - 1), Mem.write m zb
          (((m zb) &&& (USIZE - 1 - (PAGE_SIZE - 1))) ||| (((m zb) &&& 4095) - 1))) := by
    have h2 := decrement_refs_pos (Zone.ofMem m zb) m hrefs
    simpa [Zone.ofMem, Zone.get_refs] using h2
  have hs : (if ((m zb) &&& 4095) - 1 = 0
      then k.shrink_pool (Zone.ofMem m zb) (Mem.write m zb
        (((m zb) &&& (USIZE - 1 - (PAGE_SIZE - 1))) ||| (((m zb) &&& 4095) - 1)))
      else (none, Mem.write m zb
        (((m zb) &&& (USIZE - 1 - (PAGE_SIZE - 1))) ||| (((m zb) &&& 4095) - 1)),
        ([] : List Nat)))
      = (none, Mem.write m zb
        (((m zb) &&& (USIZE - 1 - (PAGE_SIZE - 1))) ||| (((m zb) &&& 4095) - 1)),
        ([] : List Nat)) := by
    by_cases hc : ((m zb) &&& 4095) - 1 = 0
    · rw [if_pos hc]
      exact shrink_pool_head k _ _ (hhead (by omega))
    · rw [if_neg hc]
  have hcs : (Header.ofMem m (ptr - HEADER_SIZE)).set_unused.chunk_size
      = (m (ptr - HEADER_SIZE)) &&& 4095 := by
    simp only [Header.chunk_size, Header.set_unused, Header.ofMem]
    exact set_unused_and_4095 _
  have hm1np : (Mem.write m zb
        (((m zb) &&& (USIZE - 1 - (PAGE_SIZE - 1))) ||| (((m zb) &&& 4095) - 1)))
        (ptr + ((m (ptr - HEADER_SIZE)) &&& 4095))
      = m (ptr + ((m (ptr - HEADER_SIZE)) &&& 4095)) :=
    Mem.write_other _ _ _ _ (by omega)
  have hfree1 : Kalloc.free k m ptr = Kalloc.free_merge_phase
      ((Header.ofMem m (ptr - HEADER_SIZE)).set_unused) (ptr - HEADER_SIZE)
      (ptr + ((m (ptr - HEADER_SIZE)) &&& 4095)) zb
      (Mem.write m zb
        (((m zb) &&& (USIZE - 1 - (PAGE_SIZE - 1))) ||| (((m zb) &&& 4095) - 1))) [] := by
    rw [free_unfold k m ptr zb hzb]
    simp only [if_neg h1, hdec, Kalloc.free_shrink_phase, hs, hcs]
  have hg1 : (Kalloc.free k m ptr).fault = none := by
    rw [hfree1]
    rfl
  have hg2 : ((Kalloc.free k m ptr).mem (ptr - HEADER_SIZE)) &&& 4096 = 0 := by
    rw [hfree1]
    simp only [Kalloc.free_merge_phase, Header.ofMem, hm1np, Header.is_free, HEADER_USED,
      beq_iff_eq]
    by_cases hnf : (m (ptr + ((m (ptr - HEADER_SIZE)) &&& 4095))) &&& 4096 = 0
    · have hS : ((m (ptr - HEADER_SIZE)) &&& 4095) + HEADER_SIZE +
          ((m (ptr + ((m (ptr - HEADER_SIZE)) &&& 4095))) &&& 4095) < 4096 := by
        rcases hmerge with hl | hr
        · exact absurd hnf hl
        · simp only [HEADER_SIZE] at hr ⊢
          omega
      rw [if_pos hnf]
      simp only [Header.merge, Header.write_to, Mem.write_self, Header.set_size,
        Header.chunk_size, Header.set_unused, set_unused_and_4095]
      exact merged_header_free _ hS
    · rw [if_neg hnf]
      simp only [Header.write_to, Mem.write_self, Header.set_unused]
      exact set_unused_and_4096 _
  have h2free : (Header.ofMem ((Kalloc.free k m ptr).mem) (ptr - HEADER_SIZE)).is_free = true := by
    simp only [Header.ofMem, Header.is_free, HEADER_USED, beq_iff_eq]
    exact hg2
  refine ⟨hg1, hg2, ?_⟩
  rw [free_unfold k ((Kalloc.free k m ptr).mem) ptr zb hzb, if_pos h2free]

end SymbolicFree

/-- Witness for C5: config E — freeing `0x1010` (head zone, refs 2, used
4080-byte chunk) succeeds and marks the header free in memory; a second
`free` of `0x1010` hits the fatal "Kalloc double free." assertion. -/
theorem c5_double_free_detected_witness :
    (Kalloc.free kA mE 4112).fault = none ∧
    ((Kalloc.free kA mE 4112).mem (4112 - HEADER_SIZE)) &&& 4096 = 0 ∧
    (Kalloc.free kA (Kalloc.free kA mE 4112).mem 4112).fault = some "Kalloc double free." :=
  c5_double_free_detected kA mE 4112 (by decide) (by decide) (by decide)
    (by decide) (by decide)

/-- Witness for C10: config E — freeing the used 4080-byte chunk at
`0x1010` of the head zone (page `0x1000`) completes normally and its
merge check reads `0x2000`, the first word of the next page; the config-C
scan hit at `0x1010` has its header inside the page. -/
theorem c10_free_reads_past_page_witness :
    ((4112 &&& (USIZE - 1 - (PAGE_SIZE - 1))) + PAGE_SIZE) ∈ (Kalloc.free kA mE 4112).reads ∧
    4112 - 8 < (Zone.ofMem mC 4096).base + PAGE_SIZE :=
  c10_free_reads_past_page kA mE 4112 (Zone.ofMem mC 4096) mC 32 4112 rfl (by decide) rfl

/-- Witness for the amended C9 at config D: freeing `0x2010` (non-head
zone `0x2000`, refs 1) panics with the zone-not-in-list diagnostic, frees
no page, and leaves the chunk's header word in memory untouched. -/
theorem c9_free_panics_before_pfree_witness :
    (Kalloc.free kA mD 8208).fault = some "Tried to free a zone that was not in the list" ∧
    (Kalloc.free kA mD 8208).pfreed = [] ∧
    (Kalloc.free kA mD 8208).mem (8208 - HEADER_SIZE) = mD (8208 - HEADER_SIZE) :=
  c9_free_panics_before_pfree kA mD 8208 (by decide) (by decide) (by decide) (by decide)

end Vmalloc
